import Mathlib

/-!
Shallow embedding of the name-service program (src/program/src/{state,error,instruction}.rs)
and proofs of the specified properties. Bytes of `u8` are embedded as `Nat`
(well-formedness `< 256` stated where it matters); a Solana `Pubkey`
(`[u8; 32]`) is a list of 32 bytes.
-/

namespace NameService

/-- A Solana public key: exactly 32 bytes (embedding of `Pubkey`, i.e. `[u8; 32]`). -/
def Pubkey := { l : List Nat // l.length = 32 }

instance : DecidableEq Pubkey := fun a b =>
  decidable_of_iff (a.val = b.val) Subtype.ext_iff.symm

/-- `Pubkey::default()`: the all-zero key. -/
def Pubkey.default : Pubkey := ⟨List.replicate 32 0, List.length_replicate 32 0⟩

/-- Embedding of `solana_program::program_error::ProgramError` (the variants this
program touches). -/
inductive ProgramError where
  | InvalidAccountData : ProgramError
  | Custom : Nat → ProgramError
deriving DecidableEq

/-- `NameRecordHeader` from state.rs: three 32-byte addresses. The Rust field
`class` is a Lean keyword, so it is spelled `class_` here. -/
structure NameRecordHeader where
  parent_name : Pubkey
  owner : Pubkey
  class_ : Pubkey
deriving DecidableEq

/-- `Pack::LEN` for `NameRecordHeader`. -/
def NameRecordHeader.LEN : Nat := 96

/-- `pack_into_slice`: borsh serialization of the three fields in declaration
order, each `[u8; 32]` written as its 32 raw bytes. -/
def NameRecordHeader.pack_into_slice (h : NameRecordHeader) : List Nat :=
  h.parent_name.val ++ h.owner.val ++ h.class_.val

/-- `unpack_from_slice`: borsh `try_from_slice`, which consumes exactly the
three 32-byte fields and rejects any input that is too short or has trailing
bytes, mapped to `ProgramError::InvalidAccountData` as in state.rs. -/
def NameRecordHeader.unpack_from_slice (src : List Nat) :
    Except ProgramError NameRecordHeader :=
  if h : src.length = 96 then
    .ok { parent_name := ⟨src.take 32, by simp [h]⟩
          owner := ⟨(src.drop 32).take 32, by simp [h]⟩
          class_ := ⟨src.drop 64, by simp [h]⟩ }
  else
    .error ProgramError.InvalidAccountData

/-- `IsInitialized for NameRecordHeader`: `self.owner != Pubkey::default()`. -/
def NameRecordHeader.is_initialized (h : NameRecordHeader) : Bool :=
  decide (h.owner ≠ Pubkey.default)

/-- `write_data` from state.rs:
`account_data[offset..offset + input.len()].copy_from_slice(input)`. -/
def write_data (account_data : List Nat) (input : List Nat) (offset : Nat) :
    List Nat :=
  account_data.take offset ++ input ++ account_data.drop (offset + input.length)

/-- The `.chunks(32)` slice iterator used by `get_seeds_and_key`: splits a byte
list into consecutive pieces of 32 bytes (the last one possibly shorter). -/
def chunks32 (l : List Nat) : List (List Nat) :=
  if l = [] then [] else l.take 32 :: chunks32 (l.drop 32)
termination_by l.length
decreasing_by
  simp only [List.length_drop]
  cases l with
  | nil => simp_all
  | cons a t => simp; omega

/-- `get_seeds_and_key` from state.rs. `Pubkey::find_program_address` is a host
primitive (hash-based search for an off-curve address together with its bump
byte); it is passed in explicitly as the pure function it is. -/
def get_seeds_and_key
    (find_program_address : List (List Nat) → Pubkey → Pubkey × Nat)
    (program_id : Pubkey) (hashed_name : List Nat)
    (name_class_opt : Option Pubkey) (parent_name_address_opt : Option Pubkey) :
    Pubkey × List Nat :=
  let name_class : Pubkey := name_class_opt.getD Pubkey.default
  let parent_name_address : Pubkey := parent_name_address_opt.getD Pubkey.default
  let seeds_vec : List Nat := hashed_name ++ name_class.val ++ parent_name_address.val
  let seed_slices : List (List Nat) := chunks32 seeds_vec
  let r := find_program_address seed_slices program_id
  (r.1, seeds_vec ++ [r.2])

/-! ## Instruction codec (instruction.rs) -/

/-- `NameRegistryInstruction` from instruction.rs. `u64`/`u32` payloads are
`Nat`s (well-formedness bounds in `NameRegistryInstruction.wf`). -/
inductive NameRegistryInstruction where
  | Create (hashed_name : List Nat) (lamports : Nat) (space : Nat)
  | Update (offset : Nat) (data : List Nat)
  | Transfer (new_owner : Pubkey)
  | Delete
deriving DecidableEq

/-- The machine-width and byte-range constraints that the Rust types
(`Vec<u8>`, `u64`, `u32`) impose on a `NameRegistryInstruction` value. -/
def NameRegistryInstruction.wf : NameRegistryInstruction → Bool
  | .Create hashed_name lamports space =>
      hashed_name.length < 2 ^ 32 && hashed_name.all (· < 256) &&
        lamports < 2 ^ 64 && space < 2 ^ 32
  | .Update offset data =>
      offset < 2 ^ 32 && data.length < 2 ^ 32 && data.all (· < 256)
  | .Transfer _ => true
  | .Delete => true

/-- Little-endian borsh encoding of a `u32`. -/
def u32le (n : Nat) : List Nat :=
  [n % 256, n / 256 % 256, n / 65536 % 256, n / 16777216 % 256]

/-- Little-endian borsh encoding of a `u64`. -/
def u64le (n : Nat) : List Nat :=
  [n % 256, n / 256 % 256, n / 65536 % 256, n / 16777216 % 256,
   n / 4294967296 % 256, n / 1099511627776 % 256,
   n / 281474976710656 % 256, n / 72057594037927936 % 256]

/-- Borsh encoding of a `Vec<u8>`: `u32` length prefix, then the bytes. -/
def borshVec (bs : List Nat) : List Nat := u32le bs.length ++ bs

/-- `try_to_vec` (borsh serialization): one discriminant byte in declaration
order, then the variant's fields. -/
def NameRegistryInstruction.try_to_vec : NameRegistryInstruction → List Nat
  | .Create hashed_name lamports space =>
      0 :: (borshVec hashed_name ++ u64le lamports ++ u32le space)
  | .Update offset data => 1 :: (u32le offset ++ borshVec data)
  | .Transfer new_owner => 2 :: new_owner.val
  | .Delete => [3]

/-- Borsh reader for a `u32`: four little-endian bytes. -/
def readU32 : List Nat → Option (Nat × List Nat)
  | b0 :: b1 :: b2 :: b3 :: rest =>
      some (b0 + 256 * b1 + 65536 * b2 + 16777216 * b3, rest)
  | _ => none

/-- Borsh reader for a `u64`: eight little-endian bytes. -/
def readU64 : List Nat → Option (Nat × List Nat)
  | b0 :: b1 :: b2 :: b3 :: b4 :: b5 :: b6 :: b7 :: rest =>
      some (b0 + 256 * b1 + 65536 * b2 + 16777216 * b3 + 4294967296 * b4 +
              1099511627776 * b5 + 281474976710656 * b6 +
              72057594037927936 * b7, rest)
  | _ => none

/-- Borsh reader for a `Vec<u8>`: `u32` length then that many bytes. -/
def readVec (bs : List Nat) : Option (List Nat × List Nat) :=
  match readU32 bs with
  | none => none
  | some (n, rest) =>
      if n ≤ rest.length then some (rest.take n, rest.drop n) else none

/-- Borsh reader for a `Pubkey`: 32 raw bytes. -/
def readPubkey (bs : List Nat) : Option (Pubkey × List Nat) :=
  if h : 32 ≤ bs.length then
    some (⟨bs.take 32, by simp; omega⟩, bs.drop 32)
  else none

/-- `NameRegistryInstruction::try_from_slice` (borsh deserialization): reads
the discriminant byte, then the variant's fields; an unknown discriminant or
leftover trailing bytes are a decode error. -/
def NameRegistryInstruction.try_from_slice (bs : List Nat) :
    Option NameRegistryInstruction :=
  match bs with
  | [] => none
  | tag :: rest =>
      if tag = 0 then
        match readVec rest with
        | none => none
        | some (hashed_name, r1) =>
            match readU64 r1 with
            | none => none
            | some (lamports, r2) =>
                match readU32 r2 with
                | none => none
                | some (space, r3) =>
                    if r3 = [] then some (.Create hashed_name lamports space)
                    else none
      else if tag = 1 then
        match readU32 rest with
        | none => none
        | some (offset, r1) =>
            match readVec r1 with
            | none => none
            | some (data, r2) =>
                if r2 = [] then some (.Update offset data) else none
      else if tag = 2 then
        match readPubkey rest with
        | none => none
        | some (new_owner, r1) =>
            if r1 = [] then some (.Transfer new_owner) else none
      else if tag = 3 then
        if rest = [] then some .Delete else none
      else none

/-! ## Instruction builders (instruction.rs) -/

/-- `solana_program::instruction::AccountMeta`. -/
structure AccountMeta where
  pubkey : Pubkey
  is_signer : Bool
  is_writable : Bool
deriving DecidableEq

/-- `AccountMeta::new`: writable account. -/
def AccountMeta.new (pubkey : Pubkey) (is_signer : Bool) : AccountMeta :=
  { pubkey := pubkey, is_signer := is_signer, is_writable := true }

/-- `AccountMeta::new_readonly`: read-only account. -/
def AccountMeta.new_readonly (pubkey : Pubkey) (is_signer : Bool) : AccountMeta :=
  { pubkey := pubkey, is_signer := is_signer, is_writable := false }

/-- `solana_program::instruction::Instruction`. -/
structure Instruction where
  program_id : Pubkey
  accounts : List AccountMeta
  data : List Nat
deriving DecidableEq

/-- `solana_program::system_program::id()`: the system program's address is
the all-zero key. -/
def system_program_id : Pubkey := Pubkey.default

/-- The `create` builder from instruction.rs: four fixed accounts, then one
slot each for the optional class, parent record and parent owner, absent
options filled with a non-signer `Pubkey::default()` placeholder. -/
def create (name_service_program_id : Pubkey)
    (instruction_data : NameRegistryInstruction)
    (name_account_key : Pubkey) (name_owner : Pubkey) (payer_key : Pubkey)
    (name_class_opt : Option Pubkey) (name_parent_opt : Option Pubkey)
    (name_parent_owner_opt : Option Pubkey) :
    Except ProgramError Instruction :=
  let data := instruction_data.try_to_vec
  let accounts : List AccountMeta :=
    [AccountMeta.new_readonly system_program_id false,
     AccountMeta.new payer_key true,
     AccountMeta.new name_account_key true,
     AccountMeta.new_readonly name_owner false]
  let accounts := accounts ++
    [match name_class_opt with
     | some name_class => AccountMeta.new_readonly name_class true
     | none => AccountMeta.new_readonly Pubkey.default false]
  let accounts := accounts ++
    [match name_parent_opt with
     | some name_parent => AccountMeta.new_readonly name_parent false
     | none => AccountMeta.new_readonly Pubkey.default false]
  let accounts := accounts ++
    [match name_parent_owner_opt with
     | some parent_owner => AccountMeta.new_readonly parent_owner true
     | none => AccountMeta.new_readonly Pubkey.default false]
  .ok { program_id := name_service_program_id, accounts := accounts,
        data := data }

/-! ## Errors and spec-modelled processor fragments -/

/-- `NameServiceError` from error.rs. -/
inductive NameServiceError where
  | OutOfSpace
deriving DecidableEq

/-- Modelled from the spec: the on-chain processor's `Update` handler is not
among the source files (only `write_data` in state.rs and the
`NameServiceError::OutOfSpace` declaration in error.rs are present). Following
the spec: the record's storage is the 96-byte header followed by the allocated
data region; on success write `data` at `[offset, offset + len(data))` of the
data region, and fail with `OutOfSpace`, touching nothing, if
`offset + len(data)` exceeds the allocated data region. -/
def process_update (storage : List Nat) (offset : Nat) (data : List Nat) :
    Except NameServiceError (List Nat) :=
  let allocated_data_len := storage.length - NameRecordHeader.LEN
  if allocated_data_len < offset + data.length then
    .error NameServiceError.OutOfSpace
  else
    .ok (write_data storage data (NameRecordHeader.LEN + offset))

/-- The storage bytes after an `Update` attempt: the written bytes on success,
the untouched input storage on rejection. -/
def apply_update (storage : List Nat) (offset : Nat) (data : List Nat) :
    List Nat :=
  match process_update storage offset data with
  | .ok new_storage => new_storage
  | .error _ => storage

/-- Modelled from the spec: denial reason of the authorization engine, whose
code is not among the source files. -/
inductive AuthError where
  | Unauthorized
deriving DecidableEq

/-- Modelled from the spec: the processor's `Transfer` authorization check is
not among the source files (only the instruction type and its builder are).
Following the spec: the owner's proof is always required (`Unauthorized`
otherwise); additionally, if `class` is non-default, the class account must
also supply a proof. On success `owner := new_owner` and the other header
fields are untouched. `owner_proof` / `class_proof` say whether the
corresponding account carried a verified authorization proof. -/
def process_transfer (hdr : NameRecordHeader) (new_owner : Pubkey)
    (owner_proof : Bool) (class_proof : Bool) :
    Except AuthError NameRecordHeader :=
  if owner_proof = false then
    .error AuthError.Unauthorized
  else if hdr.class_ ≠ Pubkey.default ∧ class_proof = false then
    .error AuthError.Unauthorized
  else
    .ok { hdr with owner := new_owner }

/-! ## Helper lemmas -/

/-- A sample nonzero key, used by concrete witnesses. -/
def pk_ex1 : Pubkey := ⟨1 :: List.replicate 31 0, by simp⟩

lemma header_ext {h1 h2 : NameRecordHeader}
    (e1 : h1.parent_name = h2.parent_name) (e2 : h1.owner = h2.owner)
    (e3 : h1.class_ = h2.class_) : h1 = h2 := by
  cases h1; cases h2; simp_all

lemma pack_length (h : NameRecordHeader) : h.pack_into_slice.length = 96 := by
  simp [NameRecordHeader.pack_into_slice, h.parent_name.property,
    h.owner.property, h.class_.property]

lemma pack_take32 (h : NameRecordHeader) :
    h.pack_into_slice.take 32 = h.parent_name.val := by
  rw [NameRecordHeader.pack_into_slice, List.append_assoc,
    List.take_left' h.parent_name.property]

lemma pack_drop32 (h : NameRecordHeader) :
    h.pack_into_slice.drop 32 = h.owner.val ++ h.class_.val := by
  rw [NameRecordHeader.pack_into_slice, List.append_assoc,
    List.drop_left' h.parent_name.property]

lemma pack_mid (h : NameRecordHeader) :
    (h.pack_into_slice.drop 32).take 32 = h.owner.val := by
  rw [pack_drop32, List.take_left' h.owner.property]

lemma pack_drop64 (h : NameRecordHeader) :
    h.pack_into_slice.drop 64 = h.class_.val := by
  have h64 : h.pack_into_slice.drop 64 = (h.pack_into_slice.drop 32).drop 32 := by
    rw [List.drop_drop]
  rw [h64, pack_drop32, List.drop_left' h.owner.property]

lemma unpack_pack (h : NameRecordHeader) :
    NameRecordHeader.unpack_from_slice h.pack_into_slice = .ok h := by
  rw [NameRecordHeader.unpack_from_slice, dif_pos (pack_length h)]
  congr 1
  exact header_ext (Subtype.ext (pack_take32 h)) (Subtype.ext (pack_mid h))
    (Subtype.ext (pack_drop64 h))

lemma readU32_u32le (n : Nat) (rest : List Nat) (h : n < 2 ^ 32) :
    readU32 (u32le n ++ rest) = some (n, rest) := by
  have e : n % 256 + 256 * (n / 256 % 256) + 65536 * (n / 65536 % 256) +
      16777216 * (n / 16777216 % 256) = n := by omega
  simp [u32le, readU32, e]

lemma readU32_u32le_nil (n : Nat) (h : n < 2 ^ 32) :
    readU32 (u32le n) = some (n, []) := by
  have e := readU32_u32le n [] h
  rwa [List.append_nil] at e

lemma readU64_u64le (n : Nat) (rest : List Nat) (h : n < 2 ^ 64) :
    readU64 (u64le n ++ rest) = some (n, rest) := by
  have e : n % 256 + 256 * (n / 256 % 256) + 65536 * (n / 65536 % 256) +
      16777216 * (n / 16777216 % 256) + 4294967296 * (n / 4294967296 % 256) +
      1099511627776 * (n / 1099511627776 % 256) +
      281474976710656 * (n / 281474976710656 % 256) +
      72057594037927936 * (n / 72057594037927936 % 256) = n := by omega
  simp [u64le, readU64, e]

lemma readVec_borshVec (bs rest : List Nat) (h : bs.length < 2 ^ 32) :
    readVec (borshVec bs ++ rest) = some (bs, rest) := by
  rw [borshVec, List.append_assoc, readVec, readU32_u32le _ _ h]
  simp only []
  rw [if_pos (by simp), List.take_left, List.drop_left]

lemma readVec_borshVec_nil (bs : List Nat) (h : bs.length < 2 ^ 32) :
    readVec (borshVec bs) = some (bs, []) := by
  have e := readVec_borshVec bs [] h
  rwa [List.append_nil] at e

lemma readPubkey_append (k : Pubkey) (rest : List Nat) :
    readPubkey (k.val ++ rest) = some (k, rest) := by
  rw [readPubkey, dif_pos (by simp [k.property])]
  simp only [Option.some.injEq, Prod.mk.injEq]
  exact ⟨Subtype.ext (List.take_left' k.property), List.drop_left' k.property⟩

lemma readPubkey_nil (k : Pubkey) : readPubkey k.val = some (k, []) := by
  have e := readPubkey_append k []
  rwa [List.append_nil] at e

/-! ## Claim theorems -/

/-- C4: decoding the encoding of any `NameRecordHeader` yields it back exactly,
and in particular the header encoding is injective. -/
theorem header_roundtrip :
    (∀ h : NameRecordHeader,
      NameRecordHeader.unpack_from_slice h.pack_into_slice = .ok h) ∧
    (∀ h1 h2 : NameRecordHeader,
      h1.pack_into_slice = h2.pack_into_slice → h1 = h2) := by
  refine ⟨unpack_pack, fun h1 h2 he => ?_⟩
  have e1 := unpack_pack h1
  rw [he, unpack_pack h2] at e1
  simpa using e1.symm

/-- C4 witness: the round trip and injectivity at a concrete header. -/
theorem header_roundtrip_witness :
    NameRecordHeader.unpack_from_slice
        (NameRecordHeader.pack_into_slice
          ⟨Pubkey.default, pk_ex1, Pubkey.default⟩) =
      .ok ⟨Pubkey.default, pk_ex1, Pubkey.default⟩ ∧
    (⟨Pubkey.default, pk_ex1, Pubkey.default⟩ : NameRecordHeader) =
      ⟨Pubkey.default, pk_ex1, Pubkey.default⟩ :=
  ⟨header_roundtrip.1 ⟨Pubkey.default, pk_ex1, Pubkey.default⟩,
   header_roundtrip.2 ⟨Pubkey.default, pk_ex1, Pubkey.default⟩
     ⟨Pubkey.default, pk_ex1, Pubkey.default⟩ rfl⟩

/-- C5: the encoded header is exactly 96 bytes: `parent_name` at bytes 0..32,
`owner` at 32..64 and `class` at 64..96, in that fixed order. -/
theorem header_layout (h : NameRecordHeader) :
    h.pack_into_slice.length = 96 ∧
    h.pack_into_slice.take 32 = h.parent_name.val ∧
    (h.pack_into_slice.drop 32).take 32 = h.owner.val ∧
    h.pack_into_slice.drop 64 = h.class_.val :=
  ⟨pack_length h, pack_take32 h, pack_mid h, pack_drop64 h⟩

/-- C6: every input shorter than 96 bytes is rejected by header decoding with
the decode error (`ProgramError::InvalidAccountData` in the code, the spec's
`DecodeError::InvalidHeader`); no header value is produced. -/
theorem header_decode_short (src : List Nat) (h : src.length < 96) :
    NameRecordHeader.unpack_from_slice src =
      .error ProgramError.InvalidAccountData := by
  rw [NameRecordHeader.unpack_from_slice, dif_neg (by omega)]

/-- C6 witness: decoding the empty input fails. -/
theorem header_decode_short_witness :
    ([] : List Nat).length < 96 ∧
    NameRecordHeader.unpack_from_slice [] =
      .error ProgramError.InvalidAccountData :=
  ⟨by decide, header_decode_short [] (by decide)⟩

/-- C9: a header is initialized iff its `owner` differs from the all-zero
default key, and the `parent_name` and `class` fields play no role. -/
theorem initialized_iff :
    (∀ h : NameRecordHeader,
      h.is_initialized = true ↔ h.owner ≠ Pubkey.default) ∧
    (∀ h1 h2 : NameRecordHeader, h1.owner = h2.owner →
      h1.is_initialized = h2.is_initialized) := by
  constructor
  · intro h; simp [NameRecordHeader.is_initialized]
  · intro h1 h2 he; simp [NameRecordHeader.is_initialized, he]

/-- C9 witness: two headers with equal owners but different parent and class
fields have the same initialization status. -/
theorem initialized_iff_witness :
    (⟨Pubkey.default, pk_ex1, Pubkey.default⟩ : NameRecordHeader).is_initialized
      = (⟨pk_ex1, pk_ex1, pk_ex1⟩ : NameRecordHeader).is_initialized :=
  initialized_iff.2 ⟨Pubkey.default, pk_ex1, Pubkey.default⟩
    ⟨pk_ex1, pk_ex1, pk_ex1⟩ rfl

/-- C2: within bounds, `write_data` keeps the buffer length, sets exactly the
bytes in `[offset, offset + len(input))` to the input, and leaves every byte
outside that range unchanged. -/
theorem update_write_frame (buf input : List Nat) (offset : Nat)
    (h : offset + input.length ≤ buf.length) :
    (write_data buf input offset).length = buf.length ∧
    (∀ i, offset ≤ i → i < offset + input.length →
      (write_data buf input offset)[i]? = input[i - offset]?) ∧
    (∀ i, i < offset ∨ offset + input.length ≤ i →
      (write_data buf input offset)[i]? = buf[i]?) := by
  have htl : (buf.take offset).length = offset := by
    simp only [List.length_take]
    omega
  refine ⟨?_, ?_, ?_⟩
  · simp only [write_data, List.length_append, List.length_take,
      List.length_drop]
    omega
  · intro i h1 h2
    rw [write_data, List.append_assoc,
      List.getElem?_append_right (by rw [htl]; omega), htl,
      List.getElem?_append_left (by omega)]
  · intro i hcase
    rcases hcase with hlt | hge
    · rw [write_data, List.append_assoc,
        List.getElem?_append_left (by rw [htl]; omega),
        List.getElem?_take, if_pos hlt]
    · rw [write_data, List.append_assoc,
        List.getElem?_append_right (by rw [htl]; omega), htl,
        List.getElem?_append_right (by omega), List.getElem?_drop]
      congr 1
      omega

/-- C2 witness: writing `[7, 8]` at offset 2 of a 6-byte buffer puts the first
written byte at index 2 and leaves index 5 untouched. -/
theorem update_write_frame_witness :
    2 + ([7, 8] : List Nat).length ≤ ([0, 1, 2, 3, 4, 5] : List Nat).length ∧
    (write_data [0, 1, 2, 3, 4, 5] [7, 8] 2)[2]? = ([7, 8] : List Nat)[2 - 2]? ∧
    (write_data [0, 1, 2, 3, 4, 5] [7, 8] 2)[5]? =
      ([0, 1, 2, 3, 4, 5] : List Nat)[5]? :=
  ⟨by decide,
   (update_write_frame [0, 1, 2, 3, 4, 5] [7, 8] 2 (by decide)).2.1 2
     (by decide) (by decide),
   (update_write_frame [0, 1, 2, 3, 4, 5] [7, 8] 2 (by decide)).2.2 5
     (Or.inr (by decide))⟩

/-- C1: an Update whose write range exceeds the allocated data region is
rejected with `OutOfSpace` and the storage bytes are left unchanged. -/
theorem update_out_of_space (storage : List Nat) (offset : Nat)
    (data : List Nat)
    (h : storage.length - NameRecordHeader.LEN < offset + data.length) :
    process_update storage offset data = .error NameServiceError.OutOfSpace ∧
    apply_update storage offset data = storage := by
  have hp : process_update storage offset data =
      .error NameServiceError.OutOfSpace := by
    simp only [process_update]
    rw [if_pos h]
  refine ⟨hp, ?_⟩
  rw [apply_update, hp]

/-- C1 witness: a 5-byte write at offset 3 of a record with a 4-byte data
region is rejected and the storage stays as it was. -/
theorem update_out_of_space_witness :
    (List.replicate 100 0).length - NameRecordHeader.LEN <
      3 + ([1, 2, 3, 4, 5] : List Nat).length ∧
    process_update (List.replicate 100 0) 3 [1, 2, 3, 4, 5] =
      .error NameServiceError.OutOfSpace ∧
    apply_update (List.replicate 100 0) 3 [1, 2, 3, 4, 5] =
      List.replicate 100 0 :=
  ⟨by decide, update_out_of_space (List.replicate 100 0) 3 [1, 2, 3, 4, 5]
    (by decide)⟩

/-- C3: a Transfer on a record with non-default `class` and no class proof is
rejected with `Unauthorized`, whatever the owner proof and the other supplied
accounts are. -/
theorem transfer_requires_class_proof (hdr : NameRecordHeader)
    (new_owner : Pubkey) (owner_proof : Bool)
    (hc : hdr.class_ ≠ Pubkey.default) :
    process_transfer hdr new_owner owner_proof false =
      .error AuthError.Unauthorized := by
  cases owner_proof
  · rw [process_transfer, if_pos rfl]
  · rw [process_transfer, if_neg (by simp), if_pos ⟨hc, rfl⟩]

/-- C3 witness: the rejection at a concrete record with a nonzero class and
the owner's proof supplied. -/
theorem transfer_requires_class_proof_witness :
    (⟨Pubkey.default, pk_ex1, pk_ex1⟩ : NameRecordHeader).class_ ≠ Pubkey.default ∧
    process_transfer ⟨Pubkey.default, pk_ex1, pk_ex1⟩ pk_ex1 true false =
      .error AuthError.Unauthorized :=
  ⟨by decide, transfer_requires_class_proof ⟨Pubkey.default, pk_ex1, pk_ex1⟩
    pk_ex1 true (by decide)⟩

/-- C7: `get_seeds_and_key` returns the seed bytes
`hashed_name ++ class_or_default ++ parent_or_default ++ [nonce]` and the
address the host primitive derives from exactly those seeds; being a pure
function of its inputs, it yields the same pair on every call. -/
theorem get_seeds_and_key_spec
    (find_program_address : List (List Nat) → Pubkey → Pubkey × Nat)
    (program_id : Pubkey) (hashed_name : List Nat)
    (name_class_opt parent_name_address_opt : Option Pubkey) :
    (get_seeds_and_key find_program_address program_id hashed_name
        name_class_opt parent_name_address_opt).2 =
      hashed_name ++ (name_class_opt.getD Pubkey.default).val ++
        (parent_name_address_opt.getD Pubkey.default).val ++
        [(find_program_address
            (chunks32 (hashed_name ++ (name_class_opt.getD Pubkey.default).val ++
              (parent_name_address_opt.getD Pubkey.default).val))
            program_id).2] ∧
    (get_seeds_and_key find_program_address program_id hashed_name
        name_class_opt parent_name_address_opt).1 =
      (find_program_address
          (chunks32 (hashed_name ++ (name_class_opt.getD Pubkey.default).val ++
            (parent_name_address_opt.getD Pubkey.default).val))
          program_id).1 :=
  ⟨rfl, rfl⟩

/-- C10: the `create` builder always returns 7 accounts in fixed positions;
an absent optional account becomes the non-signer default key, a supplied
class or parent-owner account is a signer, a supplied parent record is not. -/
theorem create_account_shape (name_service_program_id : Pubkey)
    (instruction_data : NameRegistryInstruction)
    (name_account_key name_owner payer_key : Pubkey)
    (name_class_opt name_parent_opt name_parent_owner_opt : Option Pubkey) :
    ∃ ins, create name_service_program_id instruction_data name_account_key
        name_owner payer_key name_class_opt name_parent_opt
        name_parent_owner_opt = .ok ins ∧
      ins.accounts.length = 7 ∧
      ins.accounts[0]? = some (AccountMeta.new_readonly system_program_id false) ∧
      ins.accounts[1]? = some (AccountMeta.new payer_key true) ∧
      ins.accounts[2]? = some (AccountMeta.new name_account_key true) ∧
      ins.accounts[3]? = some (AccountMeta.new_readonly name_owner false) ∧
      ins.accounts[4]? = some (match name_class_opt with
        | some name_class => AccountMeta.new_readonly name_class true
        | none => AccountMeta.new_readonly Pubkey.default false) ∧
      ins.accounts[5]? = some (match name_parent_opt with
        | some name_parent => AccountMeta.new_readonly name_parent false
        | none => AccountMeta.new_readonly Pubkey.default false) ∧
      ins.accounts[6]? = some (match name_parent_owner_opt with
        | some parent_owner => AccountMeta.new_readonly parent_owner true
        | none => AccountMeta.new_readonly Pubkey.default false) := by
  cases name_class_opt <;> cases name_parent_opt <;>
    cases name_parent_owner_opt <;>
    exact ⟨_, rfl, rfl, rfl, rfl, rfl, rfl, rfl, rfl, rfl⟩

/-- C8: decoding the encoding of any well-formed operation yields the identical
operation, and any byte sequence whose discriminant tag is not one of the four
defined variants is a decode error. -/
theorem instruction_roundtrip :
    (∀ op : NameRegistryInstruction, op.wf = true →
      NameRegistryInstruction.try_from_slice op.try_to_vec = some op) ∧
    (∀ tag rest, 3 < tag →
      NameRegistryInstruction.try_from_slice (tag :: rest) = none) := by
  constructor
  · intro op hwf
    cases op with
    | Create hashed_name lamports space =>
        simp only [NameRegistryInstruction.wf, Bool.and_eq_true,
          decide_eq_true_eq] at hwf
        obtain ⟨⟨⟨hlen, _⟩, hlam⟩, hsp⟩ := hwf
        have h1 : readVec (borshVec hashed_name ++
            (u64le lamports ++ u32le space)) =
            some (hashed_name, u64le lamports ++ u32le space) :=
          readVec_borshVec _ _ hlen
        have h2 : readU64 (u64le lamports ++ u32le space) =
            some (lamports, u32le space) := readU64_u64le _ _ hlam
        have h3 : readU32 (u32le space) = some (space, []) :=
          readU32_u32le_nil _ hsp
        simp [NameRegistryInstruction.try_to_vec,
          NameRegistryInstruction.try_from_slice, List.append_assoc,
          h1, h2, h3]
    | Update offset data =>
        simp only [NameRegistryInstruction.wf, Bool.and_eq_true,
          decide_eq_true_eq] at hwf
        obtain ⟨⟨hofs, hlen⟩, _⟩ := hwf
        have h1 : readU32 (u32le offset ++ borshVec data) =
            some (offset, borshVec data) := readU32_u32le _ _ hofs
        have h2 : readVec (borshVec data) = some (data, []) :=
          readVec_borshVec_nil _ hlen
        simp [NameRegistryInstruction.try_to_vec,
          NameRegistryInstruction.try_from_slice, h1, h2]
    | Transfer new_owner =>
        simp [NameRegistryInstruction.try_to_vec,
          NameRegistryInstruction.try_from_slice, readPubkey_nil]
    | Delete => rfl
  · intro tag rest htag
    simp only [NameRegistryInstruction.try_from_slice]
    rw [if_neg (by omega), if_neg (by omega), if_neg (by omega),
      if_neg (by omega)]

/-- C8 witness: a concrete round trip and a concrete unknown tag. -/
theorem instruction_roundtrip_witness :
    (NameRegistryInstruction.Update 5 [1, 2, 3]).wf = true ∧
    NameRegistryInstruction.try_from_slice
        (NameRegistryInstruction.Update 5 [1, 2, 3]).try_to_vec =
      some (NameRegistryInstruction.Update 5 [1, 2, 3]) ∧
    NameRegistryInstruction.try_from_slice [9, 0, 0] = none :=
  ⟨by decide,
   instruction_roundtrip.1 (NameRegistryInstruction.Update 5 [1, 2, 3])
     (by decide),
   instruction_roundtrip.2 9 [0, 0] (by decide)⟩

end NameService

